import Mathlib

/-!
Shallow embedding of the overload-event extraction and metric-aggregation
engine of `flexible_load_analysis` (module
`src/flexible_load_analysis/flexibility/flexibility_need.py`).

Loads, widths and power limits are embedded as rationals; timestamps carry
their time coordinate in fractional hours together with a calendar month.
Python operations that can raise (`/` on zero, `ValueError`, indexing an
empty sequence) are embedded in the `Except String` monad; `np.average`,
which yields NaN on an empty list instead of raising, is embedded as an
`Option`-valued mean.
-/

/-- A duration as handed around by the repository: either a defined
timedelta (measured in fractional hours) or the explicitly undefined
sentinel returned by the time-utility's `undef_timedelta()`. -/
inductive TimeDelta where
  | mk (hours : ℚ)
  | undefined
deriving DecidableEq

/-- A timestamp: its time coordinate in fractional hours since an epoch,
plus the calendar month (1–12) the utilities derive season/month data from. -/
structure Datetime where
  hours : ℚ
  month : ℕ
deriving DecidableEq

/-- Difference of two datetimes, as Python's `datetime - datetime`. -/
def Datetime.sub (a b : Datetime) : TimeDelta := .mk (a.hours - b.hours)

/-- Modelled from the spec: the time-utility collaborator (the repository's
`utilities` module, absent from src/) must return "an explicitly-distinguishable
undefined duration sentinel" usable in the recovery-time slot. -/
def undef_timedelta : TimeDelta := .undefined

/-- Modelled from the spec: the time-utility collaborator converts a duration
to a fractional-hour real number; timestamps are represented directly in
hours, so defined durations convert to their hour value. The sentinel must be
"safely convertible to hours without raising" and its numeric value is left
open by the spec, which only requires the downstream reciprocal
`1 / duration_to_hours(undef)` not to raise; we fix a distinguished nonzero
value. -/
def duration_to_hours : TimeDelta → ℚ
  | .mk h => h
  | .undefined => 1

/-- Modelled from the spec: 4-season calendar mapping from a timestamp
(Dec–Feb = 0, Mar–May = 1, Jun–Aug = 2, Sep–Nov = 3). -/
def datetime_to_season (d : Datetime) : ℕ := d.month % 12 / 3

/-- `np.max` over a (nonempty in all uses) list of rationals. -/
def np_max : List ℚ → ℚ
  | [] => 0
  | x :: xs => xs.foldl max x

/-- `np.min` over a (nonempty in all uses) list of rationals. -/
def np_min : List ℚ → ℚ
  | [] => 0
  | x :: xs => xs.foldl min x

/-- Helper for `np_argmax`: first index (together with the value) of the
maximum of `x :: xs`; a later element supersedes only when strictly
greater, matching `np.argmax`'s first-occurrence rule. -/
def np_argmax_aux : ℚ → List ℚ → ℕ × ℚ
  | x, [] => (0, x)
  | x, y :: ys =>
    let p := np_argmax_aux y ys
    if p.2 > x then (p.1 + 1, p.2) else (0, x)

/-- `np.argmax`: index of the first occurrence of the maximum. -/
def np_argmax : List ℚ → ℕ
  | [] => 0
  | x :: xs => (np_argmax_aux x xs).1

/-- `np.average` of a 1-d array: the arithmetic mean, `none` standing for
the NaN produced (without raising) on an empty input. -/
def np_average (l : List ℚ) : Option ℚ :=
  if l.length = 0 then none else some (l.sum / (l.length : ℚ))

instance {ε α : Type} [DecidableEq ε] [DecidableEq α] : DecidableEq (Except ε α) := fun
  | .ok a, .ok b => decidable_of_iff (a = b) (by simp)
  | .error a, .error b => decidable_of_iff (a = b) (by simp)
  | .ok _, .error _ => .isFalse (by simp)
  | .error _, .ok _ => .isFalse (by simp)

/-- Python's true division on numbers: raises `ZeroDivisionError` on a zero
denominator. -/
def pydiv (a b : ℚ) : Except String ℚ :=
  if b = 0 then .error "ZeroDivisionError" else .ok (a / b)

/-- The metrics stored on one overload event by `OverloadEvent.__init__`. -/
structure OverloadEvent where
  dt_start : Datetime
  dt_end : Datetime
  duration_h : ℚ
  fl_spike : ℚ
  fl_surplus_energy_MWh : ℚ
  fl_rms_load : ℚ
  percentage_overload : ℚ
  fl_ramping : ℚ
deriving DecidableEq

/-- The accumulation loop of `OverloadEvent.__init__` in the
uniform-spacing branch: walks the rows `(timestamp, load)` in order,
accumulating `(fl_energy, fl_rms_load)`; energy accrues
`(load - limit) * width` only when `load > limit`, the load sum accrues
`load * width` for every sample. -/
def accumulate_uniform (rows : List (Datetime × ℚ)) (fl_power_limit w : ℚ) : ℚ × ℚ :=
  rows.foldl
    (fun acc row =>
      (if row.2 > fl_power_limit then acc.1 + (row.2 - fl_power_limit) * w else acc.1,
       acc.2 + row.2 * w))
    (0, 0)

/-- The accumulation loop of `OverloadEvent.__init__` in the
explicit-spacing branch: `zip(ts[:, 1], all_timestamp_widths)` silently
truncates to the shorter operand, then accumulates exactly as the uniform
branch with the per-element width. -/
def accumulate_explicit (loads ws : List ℚ) (fl_power_limit : ℚ) : ℚ × ℚ :=
  (loads.zip ws).foldl
    (fun acc pw =>
      (if pw.1 > fl_power_limit then acc.1 + (pw.1 - fl_power_limit) * pw.2 else acc.1,
       acc.2 + pw.1 * pw.2))
    (0, 0)

/-- The tail of `OverloadEvent.__init__` after the accumulation loop, for a
window `first :: rest` and the accumulated `(fl_energy, fl_rms_load)` pair:
the unguarded division `fl_rms_load / duration_h`, then `percentage_overload`
(guarded against a zero limit) and `fl_ramping` (guarded against a zero
time-to-peak), and the assembled record. -/
def OverloadEvent.init_metrics (first : Datetime × ℚ) (rest : List (Datetime × ℚ))
    (fl_power_limit : ℚ) (acc : ℚ × ℚ) : Except String OverloadEvent :=
  let dt_start := first.1
  let dt_end := (rest.getLastD first).1
  let duration_h := duration_to_hours (dt_end.sub dt_start)
  let loads := (first :: rest).map Prod.snd
  let fl_spike := max (np_max loads - fl_power_limit) 0
  match pydiv acc.2 duration_h with
  | .error msg => .error msg
  | .ok fl_rms_load =>
    let percentage_overload :=
      if fl_power_limit ≠ 0 then 100 * fl_rms_load / fl_power_limit else -1
    let spike_dur_h :=
      duration_to_hours ((((first :: rest).getD (np_argmax loads) first).1).sub dt_start)
    let fl_ramping :=
      if spike_dur_h ≠ 0 then (np_max loads - fl_power_limit) / spike_dur_h else -1
    .ok { dt_start, dt_end, duration_h, fl_spike,
          fl_surplus_energy_MWh := acc.1, fl_rms_load, percentage_overload, fl_ramping }

/-- `OverloadEvent.__init__`: computes all metrics of a single overload
event from the windowed timeseries and the power limit. Failure modes of
the Python code are surfaced in `Except`: indexing an empty window, the
`ValueError` for a missing width list in explicit-spacing mode, and the
unguarded division of the accumulated load sum by `duration_h` (performed
in `OverloadEvent.init_metrics`). -/
def OverloadEvent.init
    (ts_overload_event : List (Datetime × ℚ))
    (fl_power_limit : ℚ)
    (equal_timestamp_spacing : Bool)
    (widths_for_equally_spaced_timestamps : ℚ)
    (all_timestamp_widths : Option (List ℚ)) : Except String OverloadEvent :=
  match ts_overload_event with
  | [] => .error "IndexError"
  | first :: rest =>
    let loads := (first :: rest).map Prod.snd
    let accE : Except String (ℚ × ℚ) :=
      match equal_timestamp_spacing with
      | true =>
        .ok (accumulate_uniform (first :: rest) fl_power_limit widths_for_equally_spaced_timestamps)
      | false =>
        match all_timestamp_widths with
        | none => .error "ValueError: the list of timestamp widths must be provided when equal_timestamp_spacing is False."
        | some ws => .ok (accumulate_explicit loads ws fl_power_limit)
    match accE with
    | .error msg => .error msg
    | .ok acc => OverloadEvent.init_metrics first rest fl_power_limit acc

/-- `OverloadEvent.is_unimportant`: true exactly when the stored duration
equals 1 hour. -/
def OverloadEvent.is_unimportant (o : OverloadEvent) : Bool :=
  o.duration_h == 1

/-- `remove_unimportant_overloads`: keeps the events that are not
unimportant, in order. -/
def remove_unimportant_overloads (l_overloads : List OverloadEvent) : List OverloadEvent :=
  l_overloads.filter (fun o => ! o.is_unimportant)

/-- The recovery-time loop of `FlexibilityNeed.__init__`: for each adjacent
pair of events, the gap from one event's end to the next event's start. -/
def recovery_gaps : List OverloadEvent → List TimeDelta
  | [] => []
  | [_] => []
  | a :: b :: rest => (b.dt_start.sub a.dt_end) :: recovery_gaps (b :: rest)

/-- The aggregate record built by `FlexibilityNeed.__init__`. -/
structure FlexibilityNeed where
  l_overloads : List OverloadEvent
  str_flex_category : String
  l_recovery_times : List TimeDelta
  fl_avg_frequency : Option ℚ
  fl_avg_spike : Option ℚ
deriving DecidableEq

/-- The list comprehension `[1 / duration_to_hours(t) for t in l]` of
`FlexibilityNeed.__init__`, evaluated left to right; the reciprocal is
Python division and can raise, embedded through `pydiv`. -/
def frequency_list : List TimeDelta → Except String (List ℚ)
  | [] => .ok []
  | t :: ts =>
    match pydiv 1 (duration_to_hours t), frequency_list ts with
    | .error msg, _ => .error msg
    | .ok _, .error msg => .error msg
    | .ok q, .ok qs => .ok (q :: qs)

/-- `FlexibilityNeed.__init__`: stores the events, the recovery times (the
adjacent gaps followed by the undefined sentinel), and the two averages. -/
def FlexibilityNeed.init (l_overloads : List OverloadEvent) : Except String FlexibilityNeed :=
  let l_recovery_times := recovery_gaps l_overloads ++ [undef_timedelta]
  match frequency_list l_recovery_times with
  | .error msg => .error msg
  | .ok freqs =>
    .ok { l_overloads, str_flex_category := "", l_recovery_times,
          fl_avg_frequency := np_average freqs,
          fl_avg_spike := np_average (l_overloads.map (fun o => o.fl_spike)) }

/-- The per-metric arrays returned by `FlexibilityNeed.extract_arrays`. -/
structure Arrays where
  spike : List ℚ
  energy : List ℚ
  duration : List ℚ
  season : List ℕ
  month : List ℕ
  recovery : List ℚ
  ramping : List ℚ
deriving DecidableEq

/-- `FlexibilityNeed.extract_arrays`: one value per event for every metric,
except `recovery`, which maps `duration_to_hours` over the stored
recovery-time list (adjacent gaps plus the trailing sentinel). -/
def FlexibilityNeed.extract_arrays (need : FlexibilityNeed) : Arrays :=
  let l_overloads := need.l_overloads
  { spike := l_overloads.map (fun o => o.fl_spike)
    energy := l_overloads.map (fun o => o.fl_surplus_energy_MWh)
    duration := l_overloads.map (fun o => o.duration_h)
    season := l_overloads.map (fun o => datetime_to_season o.dt_start)
    month := l_overloads.map (fun o => o.dt_start.month)
    recovery := need.l_recovery_times.map duration_to_hours
    ramping := l_overloads.map (fun o => o.fl_ramping) }

example : OverloadEvent.init [(⟨0, 1⟩, 10), (⟨1, 1⟩, 20), (⟨2, 1⟩, 30)] 0 false 1 (some [1])
    = Except.ok ⟨⟨0, 1⟩, ⟨2, 1⟩, 2, 30, 10, 5, -1, 15⟩ := by
  norm_num [OverloadEvent.init, OverloadEvent.init_metrics, accumulate_explicit, np_max,
    np_argmax, np_argmax_aux, duration_to_hours, Datetime.sub, pydiv]

example : OverloadEvent.init [(⟨0, 1⟩, (5 : ℚ))] 3 true 1 none
    = Except.error "ZeroDivisionError" := by
  norm_num [OverloadEvent.init, OverloadEvent.init_metrics, accumulate_uniform, np_max,
    np_argmax, np_argmax_aux, duration_to_hours, Datetime.sub, pydiv]

/-! ## Inversion lemmas for the embedded constructors -/

lemma pydiv_eq_ok_iff {a b c : ℚ} : pydiv a b = .ok c ↔ b ≠ 0 ∧ c = a / b := by
  unfold pydiv
  split_ifs with h <;> simp [h, eq_comm]

lemma pydiv_zero (a : ℚ) : pydiv a 0 = .error "ZeroDivisionError" := by
  simp [pydiv]

/-- The overload-event record produced in the success case, as a function of
the window decomposition and the accumulated `(energy, load-sum)` pair. -/
def mkEvent (first : Datetime × ℚ) (rest : List (Datetime × ℚ))
    (fl_power_limit : ℚ) (acc : ℚ × ℚ) : OverloadEvent :=
  { dt_start := first.1
    dt_end := (rest.getLastD first).1
    duration_h := duration_to_hours ((rest.getLastD first).1.sub first.1)
    fl_spike := max (np_max ((first :: rest).map Prod.snd) - fl_power_limit) 0
    fl_surplus_energy_MWh := acc.1
    fl_rms_load := acc.2 / duration_to_hours ((rest.getLastD first).1.sub first.1)
    percentage_overload :=
      if fl_power_limit ≠ 0 then
        100 * (acc.2 / duration_to_hours ((rest.getLastD first).1.sub first.1)) / fl_power_limit
      else -1
    fl_ramping :=
      if duration_to_hours
          ((((first :: rest).getD (np_argmax ((first :: rest).map Prod.snd)) first).1).sub first.1) ≠ 0
      then (np_max ((first :: rest).map Prod.snd) - fl_power_limit) /
        duration_to_hours
          ((((first :: rest).getD (np_argmax ((first :: rest).map Prod.snd)) first).1).sub first.1)
      else -1 }

lemma pydiv_eq_error {a b : ℚ} {msg : String} (h : pydiv a b = .error msg) : b = 0 := by
  unfold pydiv at h
  split_ifs at h with h0
  · exact h0

lemma init_metrics_ok_iff (first : Datetime × ℚ) (rest : List (Datetime × ℚ))
    (L : ℚ) (acc : ℚ × ℚ) (e : OverloadEvent) :
    OverloadEvent.init_metrics first rest L acc = .ok e ↔
      duration_to_hours ((rest.getLastD first).1.sub first.1) ≠ 0 ∧
      e = mkEvent first rest L acc := by
  simp only [OverloadEvent.init_metrics]
  rcases hpd : pydiv acc.2 (duration_to_hours ((rest.getLastD first).1.sub first.1)) with msg | rms
  · constructor
    · intro h; cases h
    · rintro ⟨hD, -⟩; exact absurd (pydiv_eq_error hpd) hD
  · obtain ⟨hD, hrs⟩ := pydiv_eq_ok_iff.mp hpd
    subst hrs
    show Except.ok (mkEvent first rest L acc) = Except.ok e ↔ _
    constructor
    · intro h
      injection h with h
      exact ⟨hD, h.symm⟩
    · rintro ⟨-, he⟩
      rw [he]

lemma init_uniform_eq (first : Datetime × ℚ) (rest : List (Datetime × ℚ))
    (L w : ℚ) (ows : Option (List ℚ)) :
    OverloadEvent.init (first :: rest) L true w ows =
      OverloadEvent.init_metrics first rest L (accumulate_uniform (first :: rest) L w) := rfl

lemma init_explicit_eq (first : Datetime × ℚ) (rest : List (Datetime × ℚ))
    (L w : ℚ) (ws : List ℚ) :
    OverloadEvent.init (first :: rest) L false w (some ws) =
      OverloadEvent.init_metrics first rest L
        (accumulate_explicit ((first :: rest).map Prod.snd) ws L) := rfl

lemma init_explicit_none (first : Datetime × ℚ) (rest : List (Datetime × ℚ)) (L w : ℚ) :
    OverloadEvent.init (first :: rest) L false w none =
      .error "ValueError: the list of timestamp widths must be provided when equal_timestamp_spacing is False." := rfl

lemma init_nil (L w : ℚ) (b : Bool) (ows : Option (List ℚ)) :
    OverloadEvent.init [] L b w ows = .error "IndexError" := rfl

/-- Any successful construction yields the window nonempty and the record
`mkEvent` of one of the two accumulation modes. -/
lemma init_ok_elim {ts : List (Datetime × ℚ)} {L w : ℚ} {b : Bool}
    {ows : Option (List ℚ)} {e : OverloadEvent}
    (h : OverloadEvent.init ts L b w ows = .ok e) :
    ∃ first rest acc, ts = first :: rest ∧
      duration_to_hours ((rest.getLastD first).1.sub first.1) ≠ 0 ∧
      e = mkEvent first rest L acc ∧
      ((b = true ∧ acc = accumulate_uniform (first :: rest) L w) ∨
       (b = false ∧ ∃ ws, ows = some ws ∧
          acc = accumulate_explicit ((first :: rest).map Prod.snd) ws L)) := by
  match ts, b, ows with
  | [], _, _ => rw [init_nil] at h; cases h
  | first :: rest, true, ows =>
    rw [init_uniform_eq] at h
    obtain ⟨hD, he⟩ := (init_metrics_ok_iff first rest L _ e).mp h
    exact ⟨first, rest, _, rfl, hD, he, Or.inl ⟨rfl, rfl⟩⟩
  | first :: rest, false, none =>
    rw [init_explicit_none] at h; cases h
  | first :: rest, false, some ws =>
    rw [init_explicit_eq] at h
    obtain ⟨hD, he⟩ := (init_metrics_ok_iff first rest L _ e).mp h
    exact ⟨first, rest, _, rfl, hD, he, Or.inr ⟨rfl, ws, rfl, rfl⟩⟩

/-! ## Bounds for the numpy-style helpers -/

lemma le_foldl_max : ∀ (xs : List ℚ) (a : ℚ), a ≤ xs.foldl max a
  | [], _ => le_refl _
  | x :: xs, a => le_trans (le_max_left a x) (le_foldl_max xs (max a x))

lemma mem_le_foldl_max : ∀ (xs : List ℚ) (a x : ℚ), x ∈ xs → x ≤ xs.foldl max a
  | y :: ys, a, x, h => by
    rcases List.mem_cons.mp h with rfl | hmem
    · exact le_trans (le_max_right a x) (le_foldl_max ys (max a x))
    · exact mem_le_foldl_max ys (max a y) x hmem

lemma le_np_max {l : List ℚ} {x : ℚ} (h : x ∈ l) : x ≤ np_max l := by
  match l with
  | a :: as =>
    rcases List.mem_cons.mp h with rfl | hmem
    · exact le_foldl_max as x
    · exact mem_le_foldl_max as a x hmem

lemma foldl_max_le : ∀ (xs : List ℚ) (a c : ℚ), a ≤ c → (∀ x ∈ xs, x ≤ c) → xs.foldl max a ≤ c
  | [], _, _, ha, _ => ha
  | x :: xs, a, c, ha, h => by
    refine foldl_max_le xs (max a x) c (max_le ha (h x (List.mem_cons_self x xs))) ?_
    exact fun y hy => h y (List.mem_cons_of_mem x hy)

lemma np_max_le {l : List ℚ} {c : ℚ} (hne : l ≠ []) (h : ∀ x ∈ l, x ≤ c) : np_max l ≤ c := by
  match l with
  | a :: as =>
    exact foldl_max_le as a c (h a (List.mem_cons_self a as))
      (fun y hy => h y (List.mem_cons_of_mem a hy))

lemma foldl_min_le : ∀ (xs : List ℚ) (a : ℚ), xs.foldl min a ≤ a
  | [], _ => le_refl _
  | x :: xs, a => le_trans (foldl_min_le xs (min a x)) (min_le_left a x)

lemma foldl_min_le_mem : ∀ (xs : List ℚ) (a x : ℚ), x ∈ xs → xs.foldl min a ≤ x
  | y :: ys, a, x, h => by
    rcases List.mem_cons.mp h with rfl | hmem
    · exact le_trans (foldl_min_le ys (min a x)) (min_le_right a x)
    · exact foldl_min_le_mem ys (min a y) x hmem

lemma np_min_le {l : List ℚ} {x : ℚ} (h : x ∈ l) : np_min l ≤ x := by
  match l with
  | a :: as =>
    rcases List.mem_cons.mp h with rfl | hmem
    · exact foldl_min_le as x
    · exact foldl_min_le_mem as a x hmem

lemma np_argmax_aux_fst_lt : ∀ (x : ℚ) (xs : List ℚ), (np_argmax_aux x xs).1 < xs.length + 1
  | _, [] => Nat.zero_lt_one
  | x, y :: ys => by
    have h := np_argmax_aux_fst_lt y ys
    simp only [np_argmax_aux]
    split_ifs
    · simpa using Nat.succ_lt_succ h
    · simp

lemma np_argmax_lt_length {l : List ℚ} (hne : l ≠ []) : np_argmax l < l.length := by
  match l with
  | x :: xs => simpa [np_argmax] using np_argmax_aux_fst_lt x xs

/-! ## The accumulation loops as sums -/

lemma accumulate_uniform_fst_aux (L w : ℚ) :
    ∀ (rows : List (Datetime × ℚ)) (p : ℚ × ℚ),
      (rows.foldl
        (fun acc row =>
          (if row.2 > L then acc.1 + (row.2 - L) * w else acc.1, acc.2 + row.2 * w)) p).1 =
      p.1 + (rows.map (fun row => if row.2 > L then (row.2 - L) * w else 0)).sum
  | [], p => by simp
  | r :: rs, p => by
    simp only [List.foldl_cons, accumulate_uniform_fst_aux L w rs, List.map_cons, List.sum_cons]
    split_ifs <;> ring

lemma accumulate_uniform_snd_aux (L w : ℚ) :
    ∀ (rows : List (Datetime × ℚ)) (p : ℚ × ℚ),
      (rows.foldl
        (fun acc row =>
          (if row.2 > L then acc.1 + (row.2 - L) * w else acc.1, acc.2 + row.2 * w)) p).2 =
      p.2 + (rows.map Prod.snd).sum * w
  | [], p => by simp
  | r :: rs, p => by
    simp only [List.foldl_cons, accumulate_uniform_snd_aux L w rs, List.map_cons, List.sum_cons]
    ring

lemma accumulate_uniform_fst (rows : List (Datetime × ℚ)) (L w : ℚ) :
    (accumulate_uniform rows L w).1 =
      (rows.map (fun row => if row.2 > L then (row.2 - L) * w else 0)).sum := by
  simpa [accumulate_uniform] using accumulate_uniform_fst_aux L w rows (0, 0)

lemma accumulate_uniform_snd (rows : List (Datetime × ℚ)) (L w : ℚ) :
    (accumulate_uniform rows L w).2 = (rows.map Prod.snd).sum * w := by
  simpa [accumulate_uniform] using accumulate_uniform_snd_aux L w rows (0, 0)

lemma accumulate_explicit_fst_aux (L : ℚ) :
    ∀ (ps : List (ℚ × ℚ)) (p : ℚ × ℚ),
      (ps.foldl
        (fun acc pw =>
          (if pw.1 > L then acc.1 + (pw.1 - L) * pw.2 else acc.1, acc.2 + pw.1 * pw.2)) p).1 =
      p.1 + (ps.map (fun pw => if pw.1 > L then (pw.1 - L) * pw.2 else 0)).sum
  | [], p => by simp
  | r :: rs, p => by
    simp only [List.foldl_cons, accumulate_explicit_fst_aux L rs, List.map_cons, List.sum_cons]
    split_ifs <;> ring

lemma accumulate_explicit_fst (loads ws : List ℚ) (L : ℚ) :
    (accumulate_explicit loads ws L).1 =
      ((loads.zip ws).map (fun pw => if pw.1 > L then (pw.1 - L) * pw.2 else 0)).sum := by
  simpa [accumulate_explicit] using accumulate_explicit_fst_aux L (loads.zip ws) (0, 0)

/-! ## Monotonicity of the surplus-energy accumulation in a single load -/

lemma energy_term_mono {L w x y : ℚ} (hw : 0 ≤ w) (hxy : x ≤ y) :
    (if x > L then (x - L) * w else 0) ≤ (if y > L then (y - L) * w else 0) := by
  split_ifs with hx hy hy
  · exact mul_le_mul_of_nonneg_right (by linarith) hw
  · linarith
  · exact mul_nonneg (by linarith) hw
  · exact le_refl 0

lemma zip_energy_sum_mono (L : ℚ) :
    ∀ (pre : List ℚ) (x y : ℚ) (post : List ℚ) (ws : List ℚ),
      (∀ q ∈ ws, 0 ≤ q) → x ≤ y →
      (((pre ++ x :: post).zip ws).map (fun pw => if pw.1 > L then (pw.1 - L) * pw.2 else 0)).sum ≤
      (((pre ++ y :: post).zip ws).map (fun pw => if pw.1 > L then (pw.1 - L) * pw.2 else 0)).sum
  | [], x, y, post, [], _, _ => by simp
  | [], x, y, post, v :: vs, hws, hxy => by
    simp only [List.nil_append, List.zip_cons_cons, List.map_cons, List.sum_cons]
    exact add_le_add_right (energy_term_mono (hws v (List.mem_cons_self v vs)) hxy) _
  | p :: pre, x, y, post, [], _, _ => by simp
  | p :: pre, x, y, post, v :: vs, hws, hxy => by
    simp only [List.cons_append, List.zip_cons_cons, List.map_cons, List.sum_cons]
    refine add_le_add_left ?_ _
    exact zip_energy_sum_mono L pre x y post vs
      (fun q hq => hws q (List.mem_cons_of_mem v hq)) hxy

/-! ## Structure of the recovery-time list -/

lemma flex_init_ok_elim {l : List OverloadEvent} {need : FlexibilityNeed}
    (h : FlexibilityNeed.init l = .ok need) :
    need.l_overloads = l ∧ need.str_flex_category = "" ∧
      need.l_recovery_times = recovery_gaps l ++ [undef_timedelta] := by
  simp only [FlexibilityNeed.init] at h
  rcases hm : frequency_list (recovery_gaps l ++ [undef_timedelta]) with msg | freqs
  · rw [hm] at h; cases h
  · rw [hm] at h
    injection h with h
    subst h
    exact ⟨rfl, rfl, rfl⟩

lemma recovery_gaps_length : ∀ l : List OverloadEvent, (recovery_gaps l).length = l.length - 1
  | [] => rfl
  | [_] => rfl
  | a :: b :: rest => by
    simp only [recovery_gaps, List.length_cons, recovery_gaps_length (b :: rest)]
    simp

lemma recovery_gaps_get? :
    ∀ (l : List OverloadEvent) (i : ℕ) (a b : OverloadEvent),
      l.get? i = some a → l.get? (i + 1) = some b →
      (recovery_gaps l).get? i = some (b.dt_start.sub a.dt_end)
  | [], i, a, b, h1, _ => by cases h1
  | [x], i, a, b, _, h2 => by
    rw [List.get?_cons_succ] at h2
    cases h2
  | x :: y :: rest, 0, a, b, h1, h2 => by
    simp only [List.get?_cons_zero] at h1
    simp only [List.get?_cons_succ, List.get?_cons_zero] at h2
    injection h1 with h1
    injection h2 with h2
    subst h1; subst h2
    rfl
  | x :: y :: rest, i + 1, a, b, h1, h2 => by
    rw [List.get?_cons_succ] at h1 h2
    exact recovery_gaps_get? (y :: rest) i a b h1 h2

/-! ## Claim theorems -/

lemma init_metrics_error_of_dur_zero (first : Datetime × ℚ) (rest : List (Datetime × ℚ))
    (L : ℚ) (acc : ℚ × ℚ)
    (h : duration_to_hours ((rest.getLastD first).1.sub first.1) = 0) :
    OverloadEvent.init_metrics first rest L acc = .error "ZeroDivisionError" := by
  simp only [OverloadEvent.init_metrics]
  rw [h, pydiv_zero]

/-- C2: the claim says a single-sample window must not raise and must give
sentinel values to the duration-divided metrics. The code instead divides
the accumulated load sum by `duration_h = 0` without a guard, so the
constructor fails with `ZeroDivisionError` on every single-sample window;
the spec's requirement is not met by the code. -/
theorem C2_single_sample_raises (t : Datetime) (x L w : ℚ) :
    OverloadEvent.init [(t, x)] L true w none = Except.error "ZeroDivisionError" := by
  rw [init_uniform_eq]
  exact init_metrics_error_of_dur_zero (t, x) [] L _
    (by simp [duration_to_hours, Datetime.sub])

/-- C3 counterexample: explicit spacing selected with a width list whose
length (1) differs from the number of intervals (`len(window) - 1 = 2`),
yet the constructor succeeds instead of failing: `zip` silently truncates. -/
theorem C3_counterexample :
    (∃ e, OverloadEvent.init [(⟨0, 1⟩, 10), (⟨1, 1⟩, 20), (⟨2, 1⟩, 30)] 0 false 1 (some [1])
      = Except.ok e) ∧
    ([1] : List ℚ).length ≠ [((⟨0, 1⟩ : Datetime), (10 : ℚ)), (⟨1, 1⟩, 20), (⟨2, 1⟩, 30)].length - 1 := by
  constructor
  · refine ⟨⟨⟨0, 1⟩, ⟨2, 1⟩, 2, 30, 10, 5, -1, 15⟩, ?_⟩
    norm_num [OverloadEvent.init, OverloadEvent.init_metrics, accumulate_explicit, np_max,
      np_argmax, np_argmax_aux, duration_to_hours, Datetime.sub, pydiv]
  · norm_num

/-- C3 amended: in explicit spacing mode the constructor fails with the
`ValueError` naming the missing width list exactly when the list is absent;
a supplied list of mismatched length is NOT rejected — the `zip` silently
truncates and the event is computed from the overlapping prefix (whenever
the unguarded duration division succeeds). -/
theorem C3_amended_validation (first : Datetime × ℚ) (rest : List (Datetime × ℚ)) (L w : ℚ) :
    OverloadEvent.init (first :: rest) L false w none =
      .error "ValueError: the list of timestamp widths must be provided when equal_timestamp_spacing is False." ∧
    ∀ ws : List ℚ,
      duration_to_hours ((rest.getLastD first).1.sub first.1) ≠ 0 →
      ∃ e, OverloadEvent.init (first :: rest) L false w (some ws) = .ok e := by
  refine ⟨init_explicit_none first rest L w, fun ws hD => ?_⟩
  refine ⟨mkEvent first rest L (accumulate_explicit ((first :: rest).map Prod.snd) ws L), ?_⟩
  rw [init_explicit_eq]
  exact (init_metrics_ok_iff _ _ _ _ _).mpr ⟨hD, rfl⟩

/-- C3 witness: the amended statement at a concrete window. -/
theorem C3_amended_validation_witness :
    OverloadEvent.init [(⟨0, 1⟩, 10), (⟨1, 1⟩, 20), (⟨2, 1⟩, 30)] 0 false 1 none =
      .error "ValueError: the list of timestamp widths must be provided when equal_timestamp_spacing is False." ∧
    ∃ e, OverloadEvent.init [(⟨0, 1⟩, 10), (⟨1, 1⟩, 20), (⟨2, 1⟩, 30)] 0 false 1 (some [1])
      = Except.ok e := by
  refine ⟨(C3_amended_validation (⟨0, 1⟩, 10) [(⟨1, 1⟩, 20), (⟨2, 1⟩, 30)] 0 1).1, ?_⟩
  exact (C3_amended_validation (⟨0, 1⟩, 10) [(⟨1, 1⟩, 20), (⟨2, 1⟩, 30)] 0 1).2 [1]
    (by norm_num [duration_to_hours, Datetime.sub])

/-- C8: `is_unimportant` is true exactly on events whose stored duration is
exactly 1, and `remove_unimportant_overloads` is the order-preserving filter
of those events (a sublist of the input), hence idempotent. -/
theorem C8_importance_filter (l : List OverloadEvent) :
    (∀ o : OverloadEvent, o.is_unimportant = true ↔ o.duration_h = 1) ∧
    remove_unimportant_overloads l = l.filter (fun o => decide (o.duration_h ≠ 1)) ∧
    remove_unimportant_overloads (remove_unimportant_overloads l) =
      remove_unimportant_overloads l ∧
    (remove_unimportant_overloads l).Sublist l := by
  refine ⟨fun o => by simp [OverloadEvent.is_unimportant], ?_, ?_, ?_⟩
  · refine List.filter_congr (fun o _ => ?_)
    simp only [OverloadEvent.is_unimportant, decide_not]
    rfl
  · simp [remove_unimportant_overloads, List.filter_filter]
  · exact List.filter_sublist l

/-- C9: every successfully constructed event has a nonnegative spike, for
any power limit of any sign, and a window never exceeding the limit yields
spike exactly 0. -/
theorem C9_spike_nonneg (ts : List (Datetime × ℚ)) (L w : ℚ) (b : Bool)
    (ows : Option (List ℚ)) (e : OverloadEvent)
    (h : OverloadEvent.init ts L b w ows = .ok e) :
    0 ≤ e.fl_spike ∧ ((∀ p ∈ ts, p.2 ≤ L) → e.fl_spike = 0) := by
  obtain ⟨first, rest, acc, hts, hD, he, -⟩ := init_ok_elim h
  subst hts
  subst he
  constructor
  · exact le_max_right _ _
  · intro hall
    have hmax : np_max ((first :: rest).map Prod.snd) ≤ L := by
      refine np_max_le (by simp) ?_
      intro x hx
      obtain ⟨p, hp, rfl⟩ := List.mem_map.mp hx
      exact hall p hp
    show max (np_max ((first :: rest).map Prod.snd) - L) 0 = 0
    exact max_eq_right (by linarith)

/-- C9 witness: a concrete window below its limit has spike 0 (hence ≥ 0). -/
theorem C9_spike_nonneg_witness :
    0 ≤ (OverloadEvent.mk ⟨0, 1⟩ ⟨1, 1⟩ 1 0 0 2 40 (-1)).fl_spike ∧
    (OverloadEvent.mk ⟨0, 1⟩ ⟨1, 1⟩ 1 0 0 2 40 (-1)).fl_spike = 0 := by
  have h := C9_spike_nonneg [(⟨0, 1⟩, 1), (⟨1, 1⟩, 1)] 5 1 true none
    ⟨⟨0, 1⟩, ⟨1, 1⟩, 1, 0, 0, 2, 40, -1⟩
    (by norm_num [OverloadEvent.init, OverloadEvent.init_metrics, accumulate_uniform, np_max,
      np_argmax, np_argmax_aux, duration_to_hours, Datetime.sub, pydiv])
  refine ⟨h.1, h.2 ?_⟩
  intro p hp
  rcases List.mem_cons.mp hp with rfl | hp
  · norm_num
  · rcases List.mem_cons.mp hp with rfl | hp
    · norm_num
    · cases hp

/-- C10: an empty event list is not rejected by `FlexibilityNeed.__init__`:
construction completes, the recovery-time list is exactly the one sentinel
entry, and so the extracted recovery array has length 1 while the event
count is 0. -/
theorem C10_empty_event_list :
    ∃ need, FlexibilityNeed.init [] = Except.ok need ∧
      need.l_recovery_times = [undef_timedelta] ∧
      need.extract_arrays.recovery.length = 1 ∧
      need.l_overloads.length = 0 := by
  refine ⟨⟨[], "", [undef_timedelta], some 1, none⟩, ?_, rfl, rfl, rfl⟩
  norm_num [FlexibilityNeed.init, frequency_list, recovery_gaps, undef_timedelta,
    duration_to_hours, pydiv, np_average]

/-- C1: for a nonempty event list, a successfully constructed
`FlexibilityNeed` stores recovery times with one entry per event: entry `i`
is the gap from event `i`'s end to event `i+1`'s start, in original order,
and the final entry is the undefined sentinel; consequently the extracted
`recovery` and `duration` arrays both have length equal to the number of
events. -/
theorem C1_recovery_structure (l : List OverloadEvent) (need : FlexibilityNeed)
    (hne : l ≠ []) (h : FlexibilityNeed.init l = .ok need) :
    need.l_recovery_times.length = l.length ∧
    (∀ (i : ℕ) (a b : OverloadEvent), l.get? i = some a → l.get? (i + 1) = some b →
      need.l_recovery_times.get? i = some (b.dt_start.sub a.dt_end)) ∧
    need.l_recovery_times.get? (l.length - 1) = some undef_timedelta ∧
    need.extract_arrays.recovery.length = l.length ∧
    need.extract_arrays.duration.length = l.length := by
  obtain ⟨hover, -, hrt⟩ := flex_init_ok_elim h
  have hlen1 : 1 ≤ l.length := List.length_pos.mpr hne
  have hglen : (recovery_gaps l).length = l.length - 1 := recovery_gaps_length l
  have hlen : need.l_recovery_times.length = l.length := by
    rw [hrt, List.length_append, hglen]
    simp only [List.length_singleton]
    omega
  refine ⟨hlen, ?_, ?_, ?_, ?_⟩
  · intro i a b h1 h2
    obtain ⟨hi, -⟩ := List.get?_eq_some.mp h2
    rw [hrt, List.get?_append (show i < (recovery_gaps l).length by rw [hglen]; omega)]
    exact recovery_gaps_get? l i a b h1 h2
  · rw [hrt, show l.length - 1 = (recovery_gaps l).length from hglen.symm]
    exact List.get?_concat_length _ _
  · show (need.l_recovery_times.map duration_to_hours).length = l.length
    rw [List.length_map]
    exact hlen
  · show (need.l_overloads.map (fun o => o.duration_h)).length = l.length
    rw [List.length_map, hover]

/-- A concrete overload event used to exercise the aggregator. -/
def e1c : OverloadEvent := ⟨⟨0, 1⟩, ⟨0, 1⟩, 0, 0, 0, 0, -1, -1⟩

/-- A second concrete overload event, starting one hour after `e1c` ends. -/
def e2c : OverloadEvent := ⟨⟨1, 1⟩, ⟨1, 1⟩, 0, 0, 0, 0, -1, -1⟩

/-- The flexibility need built from `[e1c, e2c]`. -/
def needc : FlexibilityNeed :=
  ⟨[e1c, e2c], "", [.mk 1, .undefined], some 1, some 0⟩

/-- C1 witness: the recovery structure at the concrete two-event list. -/
theorem C1_recovery_structure_witness :
    needc.l_recovery_times.length = ([e1c, e2c] : List OverloadEvent).length ∧
    needc.l_recovery_times.get? 0 = some (e2c.dt_start.sub e1c.dt_end) := by
  have h := C1_recovery_structure [e1c, e2c] needc (by simp)
    (by norm_num [FlexibilityNeed.init, frequency_list, recovery_gaps, e1c, e2c, needc,
      undef_timedelta, duration_to_hours, Datetime.sub, pydiv, np_average])
  exact ⟨h.1, h.2.1 0 e1c e2c rfl rfl⟩

/-- C6 counterexample: with limit 200 and a window of constant load −1 the
time-weighted load is −2, so `100 * (−2) / 200 = −1`: the −1 sentinel value
appears although the limit is nonzero, refuting the claimed "exactly when
the limit equals 0". -/
theorem C6_counterexample :
    ∃ e, OverloadEvent.init [(⟨0, 1⟩, -1), (⟨1, 1⟩, -1)] 200 true 1 none = Except.ok e ∧
      e.percentage_overload = -1 ∧ (200 : ℚ) ≠ 0 := by
  refine ⟨⟨⟨0, 1⟩, ⟨1, 1⟩, 1, 0, 0, -2, -1, -1⟩, ?_, rfl, by norm_num⟩
  norm_num [OverloadEvent.init, OverloadEvent.init_metrics, accumulate_uniform, np_max,
    np_argmax, np_argmax_aux, duration_to_hours, Datetime.sub, pydiv]

/-- C6 amended: `percentage_overload` is the sentinel −1 whenever the limit
is 0, and otherwise equals `100 * rms_load / limit` — a value that can
itself be −1 for suitable loads, so the sentinel is only an implication,
not an equivalence. -/
theorem C6_percentage_sentinel (ts : List (Datetime × ℚ)) (L w : ℚ) (b : Bool)
    (ows : Option (List ℚ)) (e : OverloadEvent)
    (h : OverloadEvent.init ts L b w ows = .ok e) :
    (L = 0 → e.percentage_overload = -1) ∧
    (L ≠ 0 → e.percentage_overload = 100 * e.fl_rms_load / L) := by
  obtain ⟨first, rest, acc, hts, hD, he, -⟩ := init_ok_elim h
  subst he
  constructor
  · intro h0
    show (if L ≠ 0 then
        100 * (acc.2 / duration_to_hours ((rest.getLastD first).1.sub first.1)) / L
      else -1) = -1
    rw [if_neg (by simp [h0])]
  · intro h0
    show (if L ≠ 0 then
        100 * (acc.2 / duration_to_hours ((rest.getLastD first).1.sub first.1)) / L
      else -1) =
      100 * (acc.2 / duration_to_hours ((rest.getLastD first).1.sub first.1)) / L
    exact if_pos h0

/-- C6 witness: the amended statement at a concrete window with limit 5. -/
theorem C6_percentage_sentinel_witness :
    (OverloadEvent.mk ⟨0, 1⟩ ⟨1, 1⟩ 1 0 0 2 40 (-1)).percentage_overload =
      100 * (OverloadEvent.mk ⟨0, 1⟩ ⟨1, 1⟩ 1 0 0 2 40 (-1)).fl_rms_load / 5 := by
  have h := C6_percentage_sentinel [(⟨0, 1⟩, 1), (⟨1, 1⟩, 1)] 5 1 true none
    ⟨⟨0, 1⟩, ⟨1, 1⟩, 1, 0, 0, 2, 40, -1⟩
    (by norm_num [OverloadEvent.init, OverloadEvent.init_metrics, accumulate_uniform, np_max,
      np_argmax, np_argmax_aux, duration_to_hours, Datetime.sub, pydiv])
  exact h.2 (by norm_num)

lemma chain_lt_hours_get :
    ∀ (first : Datetime × ℚ) (rest : List (Datetime × ℚ)),
      List.Chain' (fun p q : Datetime × ℚ => p.1.hours < q.1.hours) (first :: rest) →
      ∀ (i : ℕ) (hi : i < rest.length), first.1.hours < (rest.get ⟨i, hi⟩).1.hours
  | _, [], _, i, hi => absurd hi (by simp)
  | first, r :: rs, h, 0, hi => (List.chain'_cons.mp h).1
  | first, r :: rs, h, i + 1, hi => by
    have h' := List.chain'_cons.mp h
    have hrec := chain_lt_hours_get r rs h'.2 i (Nat.lt_of_succ_lt_succ (by simpa using hi))
    exact lt_trans h'.1 hrec

/-- C4 counterexample: window `[(0h, 1), (1h, 4)]` with limit 5. The peak
(load 4) is at index 1, one hour in, yet `ramping = (4 - 5) / 1 = -1`:
the sentinel value appears with the peak not at the first sample, and
`ramping` differs from `spike / elapsed = 0 / 1 = 0` because the numerator
is the unclamped `max(load) - limit`, not `spike`. -/
theorem C4_counterexample :
    ∃ e, OverloadEvent.init [(⟨0, 1⟩, 1), (⟨1, 1⟩, 4)] 5 true 1 none = Except.ok e ∧
      e.fl_ramping = -1 ∧ e.fl_spike = 0 ∧
      np_argmax (([(⟨0, 1⟩, 1), (⟨1, 1⟩, 4)] : List (Datetime × ℚ)).map Prod.snd) = 1 := by
  refine ⟨⟨⟨0, 1⟩, ⟨1, 1⟩, 1, 0, 0, 5, 100, -1⟩, ?_, rfl, rfl,
    by norm_num [np_argmax, np_argmax_aux]⟩
  norm_num [OverloadEvent.init, OverloadEvent.init_metrics, accumulate_uniform, np_max,
    np_argmax, np_argmax_aux, duration_to_hours, Datetime.sub, pydiv]

/-- C4 amended: `ramping` equals `(max load - limit)` (not the clamped
spike) divided by the elapsed hours from the start to the first sample of
maximum load whenever that elapsed time is nonzero, and is −1 otherwise; a
peak at the first sample forces −1, and under strictly increasing
timestamps with the peak strictly above the limit the −1 sentinel occurs
exactly when the peak is at the first sample (in general −1 can also arise
from the division itself). -/
theorem C4_ramping (first : Datetime × ℚ) (rest : List (Datetime × ℚ))
    (L w : ℚ) (ows : Option (List ℚ)) (e : OverloadEvent)
    (h : OverloadEvent.init (first :: rest) L true w ows = .ok e) :
    (duration_to_hours ((((first :: rest).getD
        (np_argmax ((first :: rest).map Prod.snd)) first).1).sub first.1) ≠ 0 →
      e.fl_ramping = (np_max ((first :: rest).map Prod.snd) - L) /
        duration_to_hours ((((first :: rest).getD
          (np_argmax ((first :: rest).map Prod.snd)) first).1).sub first.1)) ∧
    (np_argmax ((first :: rest).map Prod.snd) = 0 → e.fl_ramping = -1) ∧
    (List.Chain' (fun p q : Datetime × ℚ => p.1.hours < q.1.hours) (first :: rest) →
      L < np_max ((first :: rest).map Prod.snd) →
      (e.fl_ramping = -1 ↔ np_argmax ((first :: rest).map Prod.snd) = 0)) := by
  rw [init_uniform_eq] at h
  obtain ⟨hD, he⟩ := (init_metrics_ok_iff _ _ _ _ _).mp h
  subst he
  have hram : (mkEvent first rest L (accumulate_uniform (first :: rest) L w)).fl_ramping =
      if duration_to_hours ((((first :: rest).getD
          (np_argmax ((first :: rest).map Prod.snd)) first).1).sub first.1) ≠ 0
      then (np_max ((first :: rest).map Prod.snd) - L) /
        duration_to_hours ((((first :: rest).getD
          (np_argmax ((first :: rest).map Prod.snd)) first).1).sub first.1)
      else -1 := rfl
  have hzero : np_argmax ((first :: rest).map Prod.snd) = 0 →
      (mkEvent first rest L (accumulate_uniform (first :: rest) L w)).fl_ramping = -1 := by
    intro h0
    have hc : duration_to_hours ((((first :: rest).getD
        (np_argmax ((first :: rest).map Prod.snd)) first).1).sub first.1) = 0 := by
      rw [h0, List.getD_cons_zero]
      simp [Datetime.sub, duration_to_hours]
    rw [hram, if_neg (by simp only [ne_eq, not_not]; exact hc)]
  refine ⟨fun hsdh => by rw [hram, if_pos hsdh], hzero, fun hchain hmax => ?_⟩
  constructor
  · intro hr
    by_contra hne0
    obtain ⟨j, hj⟩ := Nat.exists_eq_succ_of_ne_zero hne0
    have hilt : np_argmax ((first :: rest).map Prod.snd) < rest.length + 1 := by
      have hlt := np_argmax_lt_length (l := (first :: rest).map Prod.snd) (by simp)
      simpa using hlt
    have hjlt : j < rest.length := by omega
    have hlt : first.1.hours <
        (((first :: rest).getD (np_argmax ((first :: rest).map Prod.snd)) first).1).hours := by
      rw [hj, List.getD_cons_succ, List.getD_eq_get rest first hjlt]
      exact chain_lt_hours_get first rest hchain j hjlt
    have hpos : 0 < duration_to_hours ((((first :: rest).getD
        (np_argmax ((first :: rest).map Prod.snd)) first).1).sub first.1) := by
      simp only [duration_to_hours, Datetime.sub]
      linarith
    rw [hram, if_pos (ne_of_gt hpos)] at hr
    have hdiv : 0 < (np_max ((first :: rest).map Prod.snd) - L) /
        duration_to_hours ((((first :: rest).getD
          (np_argmax ((first :: rest).map Prod.snd)) first).1).sub first.1) :=
      div_pos (by linarith) hpos
    rw [hr] at hdiv
    linarith
  · exact hzero

/-- C4 witness: the amended statement at the counterexample window, where
the elapsed time to the peak is 1 hour. -/
theorem C4_ramping_witness :
    (OverloadEvent.mk ⟨0, 1⟩ ⟨1, 1⟩ 1 0 0 5 100 (-1)).fl_ramping =
      (np_max (([(⟨0, 1⟩, 1), (⟨1, 1⟩, 4)] : List (Datetime × ℚ)).map Prod.snd) - 5) /
        duration_to_hours (((([(⟨0, 1⟩, 1), (⟨1, 1⟩, 4)] : List (Datetime × ℚ)).getD
          (np_argmax (([(⟨0, 1⟩, 1), (⟨1, 1⟩, 4)] : List (Datetime × ℚ)).map Prod.snd))
          (⟨0, 1⟩, 1)).1).sub ⟨0, 1⟩) := by
  have h := C4_ramping (⟨0, 1⟩, 1) [(⟨1, 1⟩, 4)] 5 1 none
    ⟨⟨0, 1⟩, ⟨1, 1⟩, 1, 0, 0, 5, 100, -1⟩
    (by norm_num [OverloadEvent.init, OverloadEvent.init_metrics, accumulate_uniform, np_max,
      np_argmax, np_argmax_aux, duration_to_hours, Datetime.sub, pydiv])
  exact h.1 (by norm_num [np_argmax, np_argmax_aux, duration_to_hours, Datetime.sub])

/-- C5 counterexample: a constant-load window `[(0h, 1), (1h, 1)]` with
uniform width 1 accumulates a load sum of 2 over a 1-hour duration, so
`rms_load = 2` exceeds the maximum load 1: the quotient is not a weighted
mean of the samples (the total width 2 differs from the duration 1). -/
theorem C5_counterexample :
    ∃ e, OverloadEvent.init [(⟨0, 1⟩, 1), (⟨1, 1⟩, 1)] 0 true 1 none = Except.ok e ∧
      np_max (([(⟨0, 1⟩, 1), (⟨1, 1⟩, 1)] : List (Datetime × ℚ)).map Prod.snd) = 1 ∧
      e.fl_rms_load = 2 ∧
      ¬ e.fl_rms_load ≤
        np_max (([(⟨0, 1⟩, 1), (⟨1, 1⟩, 1)] : List (Datetime × ℚ)).map Prod.snd) := by
  refine ⟨⟨⟨0, 1⟩, ⟨1, 1⟩, 1, 1, 2, 2, -1, -1⟩, ?_, by norm_num [np_max], rfl,
    by norm_num [np_max]⟩
  norm_num [OverloadEvent.init, OverloadEvent.init_metrics, accumulate_uniform, np_max,
    np_argmax, np_argmax_aux, duration_to_hours, Datetime.sub, pydiv]

/-- C5 amended: in uniform mode, `rms_load` is the accumulated
width-weighted load sum divided by `duration_h`; with nonnegative width and
positive duration it lies between `min load · (n·w) / duration` and
`max load · (n·w) / duration` (n the number of samples) — it lies between
the minimum and maximum load only when the total weight `n·w` happens to
equal the duration, which fails in general since the duration spans `n - 1`
intervals. -/
theorem C5_rms_load (first : Datetime × ℚ) (rest : List (Datetime × ℚ))
    (L w : ℚ) (ows : Option (List ℚ)) (e : OverloadEvent)
    (hrest : rest ≠ []) (hw : 0 ≤ w)
    (h : OverloadEvent.init (first :: rest) L true w ows = .ok e)
    (hdur : 0 < e.duration_h) :
    e.fl_rms_load = (accumulate_uniform (first :: rest) L w).2 / e.duration_h ∧
    np_min ((first :: rest).map Prod.snd) * (((first :: rest).length : ℚ) * w) / e.duration_h
      ≤ e.fl_rms_load ∧
    e.fl_rms_load ≤
      np_max ((first :: rest).map Prod.snd) * (((first :: rest).length : ℚ) * w) /
        e.duration_h := by
  rw [init_uniform_eq] at h
  obtain ⟨hD, he⟩ := (init_metrics_ok_iff _ _ _ _ _).mp h
  subst he
  have hdur' : 0 < duration_to_hours ((rest.getLastD first).1.sub first.1) := hdur
  have hn : (((first :: rest).map Prod.snd).length : ℚ) = (((first :: rest).length : ℚ)) := by
    rw [List.length_map]
  refine ⟨rfl, ?_, ?_⟩
  · show np_min ((first :: rest).map Prod.snd) * (((first :: rest).length : ℚ) * w) /
        duration_to_hours ((rest.getLastD first).1.sub first.1) ≤
      (accumulate_uniform (first :: rest) L w).2 /
        duration_to_hours ((rest.getLastD first).1.sub first.1)
    rw [accumulate_uniform_snd]
    refine (div_le_div_right hdur').mpr ?_
    have hsum : ((first :: rest).map Prod.snd).length • np_min ((first :: rest).map Prod.snd) ≤
        ((first :: rest).map Prod.snd).sum :=
      List.card_nsmul_le_sum _ _ (fun x hx => np_min_le hx)
    rw [nsmul_eq_mul, hn] at hsum
    calc np_min ((first :: rest).map Prod.snd) * (((first :: rest).length : ℚ) * w)
        = ((((first :: rest).length : ℚ)) * np_min ((first :: rest).map Prod.snd)) * w := by ring
      _ ≤ ((first :: rest).map Prod.snd).sum * w := mul_le_mul_of_nonneg_right hsum hw
  · show (accumulate_uniform (first :: rest) L w).2 /
        duration_to_hours ((rest.getLastD first).1.sub first.1) ≤
      np_max ((first :: rest).map Prod.snd) * (((first :: rest).length : ℚ) * w) /
        duration_to_hours ((rest.getLastD first).1.sub first.1)
    rw [accumulate_uniform_snd]
    refine (div_le_div_right hdur').mpr ?_
    have hsum : ((first :: rest).map Prod.snd).sum ≤
        ((first :: rest).map Prod.snd).length • np_max ((first :: rest).map Prod.snd) :=
      List.sum_le_card_nsmul _ _ (fun x hx => le_np_max hx)
    rw [nsmul_eq_mul, hn] at hsum
    calc ((first :: rest).map Prod.snd).sum * w
        ≤ ((((first :: rest).length : ℚ)) * np_max ((first :: rest).map Prod.snd)) * w :=
          mul_le_mul_of_nonneg_right hsum hw
      _ = np_max ((first :: rest).map Prod.snd) * (((first :: rest).length : ℚ) * w) := by ring

/-- C5 witness: the amended statement at the constant-load window, where
both scaled bounds equal 2 and so does `rms_load`. -/
theorem C5_rms_load_witness :
    (OverloadEvent.mk ⟨0, 1⟩ ⟨1, 1⟩ 1 1 2 2 (-1) (-1)).fl_rms_load =
      (accumulate_uniform [(⟨0, 1⟩, 1), (⟨1, 1⟩, 1)] 0 1).2 /
        (OverloadEvent.mk ⟨0, 1⟩ ⟨1, 1⟩ 1 1 2 2 (-1) (-1)).duration_h ∧
    np_min (([(⟨0, 1⟩, 1), (⟨1, 1⟩, 1)] : List (Datetime × ℚ)).map Prod.snd) *
        ((([(⟨0, 1⟩, 1), (⟨1, 1⟩, 1)] : List (Datetime × ℚ)).length : ℚ) * 1) /
        (OverloadEvent.mk ⟨0, 1⟩ ⟨1, 1⟩ 1 1 2 2 (-1) (-1)).duration_h ≤
      (OverloadEvent.mk ⟨0, 1⟩ ⟨1, 1⟩ 1 1 2 2 (-1) (-1)).fl_rms_load ∧
    (OverloadEvent.mk ⟨0, 1⟩ ⟨1, 1⟩ 1 1 2 2 (-1) (-1)).fl_rms_load ≤
      np_max (([(⟨0, 1⟩, 1), (⟨1, 1⟩, 1)] : List (Datetime × ℚ)).map Prod.snd) *
        ((([(⟨0, 1⟩, 1), (⟨1, 1⟩, 1)] : List (Datetime × ℚ)).length : ℚ) * 1) /
        (OverloadEvent.mk ⟨0, 1⟩ ⟨1, 1⟩ 1 1 2 2 (-1) (-1)).duration_h := by
  refine C5_rms_load (⟨0, 1⟩, 1) [(⟨1, 1⟩, 1)] 0 1 none
    ⟨⟨0, 1⟩, ⟨1, 1⟩, 1, 1, 2, 2, -1, -1⟩ (by simp) (by norm_num) ?_ (by norm_num)
  norm_num [OverloadEvent.init, OverloadEvent.init_metrics, accumulate_uniform, np_max,
    np_argmax, np_argmax_aux, duration_to_hours, Datetime.sub, pydiv]

/-- C7: holding the limit, the spacing mode and all (nonnegative) widths
fixed, raising a single sample's load cannot decrease `surplus_energy`. -/
theorem C7_surplus_energy_monotone (pre post : List (Datetime × ℚ)) (t : Datetime)
    (x y L w : ℚ) (b : Bool) (ows : Option (List ℚ)) (e1 e2 : OverloadEvent)
    (hw : 0 ≤ w)
    (hws : ∀ ws : List ℚ, ows = some ws → ∀ q ∈ ws, 0 ≤ q)
    (hxy : x ≤ y)
    (h1 : OverloadEvent.init (pre ++ (t, x) :: post) L b w ows = .ok e1)
    (h2 : OverloadEvent.init (pre ++ (t, y) :: post) L b w ows = .ok e2) :
    e1.fl_surplus_energy_MWh ≤ e2.fl_surplus_energy_MWh := by
  obtain ⟨f1, r1, acc1, hts1, hD1, he1, hmode1⟩ := init_ok_elim h1
  obtain ⟨f2, r2, acc2, hts2, hD2, he2, hmode2⟩ := init_ok_elim h2
  subst he1
  subst he2
  show acc1.1 ≤ acc2.1
  rcases hmode1 with ⟨hb1, hacc1⟩ | ⟨hb1, ws1, hows1, hacc1⟩ <;>
    rcases hmode2 with ⟨hb2, hacc2⟩ | ⟨hb2, ws2, hows2, hacc2⟩
  · rw [← hts1] at hacc1
    rw [← hts2] at hacc2
    subst hacc1
    subst hacc2
    rw [accumulate_uniform_fst, accumulate_uniform_fst]
    simp only [List.map_append, List.map_cons, List.sum_append, List.sum_cons]
    refine add_le_add_left (add_le_add_right ?_ _) _
    exact energy_term_mono hw hxy
  · rw [hb1] at hb2
    exact absurd hb2 (by simp)
  · rw [hb1] at hb2
    exact absurd hb2 (by simp)
  · rw [hows1] at hows2
    injection hows2 with hws12
    subst hws12
    rw [← hts1] at hacc1
    rw [← hts2] at hacc2
    subst hacc1
    subst hacc2
    rw [accumulate_explicit_fst, accumulate_explicit_fst]
    simp only [List.map_append, List.map_cons]
    exact zip_energy_sum_mono L (pre.map Prod.snd) x y (post.map Prod.snd) ws1
      (hws ws1 hows1) hxy

/-- C7 witness: raising the first sample's load from 1 to 2 raises the
surplus energy from 1 to 2. -/
theorem C7_surplus_energy_monotone_witness :
    (OverloadEvent.mk ⟨0, 1⟩ ⟨1, 1⟩ 1 1 1 1 (-1) (-1)).fl_surplus_energy_MWh ≤
    (OverloadEvent.mk ⟨0, 1⟩ ⟨1, 1⟩ 1 2 2 2 (-1) (-1)).fl_surplus_energy_MWh := by
  refine C7_surplus_energy_monotone [] [(⟨1, 1⟩, 0)] ⟨0, 1⟩ 1 2 0 1 true none
    ⟨⟨0, 1⟩, ⟨1, 1⟩, 1, 1, 1, 1, -1, -1⟩ ⟨⟨0, 1⟩, ⟨1, 1⟩, 1, 2, 2, 2, -1, -1⟩
    (by norm_num) (fun ws h => nomatch h) (by norm_num) ?_ ?_ <;>
  norm_num [OverloadEvent.init, OverloadEvent.init_metrics, accumulate_uniform, np_max,
    np_argmax, np_argmax_aux, duration_to_hours, Datetime.sub, pydiv]
